import Mathlib

/-!
Verification development for the Stellar Antivirus desktop core
(`src/src-tauri/src/lib.rs`).  The Rust code is shallowly embedded:
pure helpers become Lean functions, the filesystem becomes an explicit
association map from path strings to content identifiers, the network
becomes an oracle argument, and real time becomes a `Nat` millisecond
parameter.  Paths are modelled Unix-style (separator `/`).
-/

set_option maxRecDepth 4000

-- ===== Rust `std::path` model (Unix rules) =====

/-- A parsed path component, mirroring `std::path::Component`
(without the Windows prefix case). -/
inductive PComp where
  | rootDir
  | curDir
  | parentDir
  | normal (s : String)
deriving DecidableEq, Repr

/-- Turn the non-empty `/`-separated pieces of a path into components:
`..` becomes `parentDir`, `.` is dropped except as the leading piece of a
relative path, anything else is `normal`.  The `Bool` flag says whether a
leading `.` may still be kept. -/
def partsToComps : Bool → List String → List PComp
  | _, [] => []
  | keepDot, p :: rest =>
    if p = "." then
      (if keepDot then [PComp.curDir] else []) ++ partsToComps false rest
    else if p = ".." then
      PComp.parentDir :: partsToComps false rest
    else
      PComp.normal p :: partsToComps false rest

/-- Split a character list on `/`, keeping empty pieces (the behavior of
`str::split('/')`). -/
def splitOnSlash : List Char → List (List Char)
  | [] => [[]]
  | c :: rest =>
    if c = '/' then [] :: splitOnSlash rest
    else
      match splitOnSlash rest with
      | [] => [[c]]
      | g :: gs => (c :: g) :: gs

/-- Lowercase a string character-wise (models `str::to_lowercase` on the
ASCII data relevant here). -/
def toLowerStr (s : String) : String :=
  String.mk (s.toList.map Char.toLower)

/-- `Path::components()` for Unix-style paths: an optional root, then the
normalized pieces. -/
def rustComponents (s : String) : List PComp :=
  let cs := s.toList
  let hasRoot : Bool := match cs with | '/' :: _ => true | _ => false
  let parts := ((splitOnSlash cs).filter (fun g => !g.isEmpty)).map String.mk
  (if hasRoot then [PComp.rootDir] else []) ++ partsToComps (!hasRoot) parts

/-- `Path::file_name()`: the last component when it is a normal one. -/
def rustFileName (p : String) : Option String :=
  match (rustComponents p).getLast? with
  | some (PComp.normal s) => some s
  | _ => none

/-- Split a character list at its last occurrence of `c`, returning the
parts before and after that occurrence. -/
def splitAtLastChar (c : Char) : List Char → Option (List Char × List Char)
  | [] => none
  | a :: rest =>
    match splitAtLastChar c rest with
    | some (st, ex) => some (a :: st, ex)
    | none => if a = c then some ([], rest) else none

/-- Rust `file_stem` / `extension` on a bare file name: split at the last
dot, except that a dot at position 0 (hidden file) yields no extension. -/
def rustStemExt (n : String) : String × Option String :=
  match splitAtLastChar '.' n.toList with
  | none => (n, none)
  | some ([], _) => (n, none)
  | some (st, ex) => (String.mk st, some (String.mk ex))

/-- Split a path at its last `/`: directory part (with trailing `/`) and
final name.  Assumes destination paths in normal form (no trailing `/`). -/
def splitLastSlash (p : String) : String × String :=
  match splitAtLastChar '/' p.toList with
  | none => ("", p)
  | some (d, n) => (String.mk (d ++ ['/']), String.mk n)

/-- `PathBuf::with_extension(ext)`: replace the final name's extension
(paths whose final name is empty, `.` or `..` are returned unchanged). -/
def withExtension (p ext : String) : String :=
  let dn := splitLastSlash p
  if dn.2 = "" ∨ dn.2 = "." ∨ dn.2 = ".." then p
  else dn.1 ++ (rustStemExt dn.2).1 ++ "." ++ ext

-- ===== Quarantine name validation (`validate_quarantine_name`) =====

/-- `validate_quarantine_name`: the name must parse to exactly one normal
path component. -/
def validateQuarantineName (name : String) : Except String Unit :=
  match rustComponents name with
  | [PComp.normal _] => Except.ok ()
  | _ => Except.error "Invalid quarantine file name"

-- ===== Filesystem model =====

/-- The filesystem: an association from absolute path strings to content
identifiers.  Directories are implicit (always creatable). -/
abbrev FsState : Type := List (String × Nat)

/-- Content at a path, if any (first matching entry). -/
def fsLookup : FsState → String → Option Nat
  | [], _ => none
  | (q, v) :: rest, p => if p = q then some v else fsLookup rest p

/-- Remove every entry at a path. -/
def fsRemove : FsState → String → FsState
  | [], _ => []
  | (q, v) :: rest, p => if q = p then fsRemove rest p else (q, v) :: fsRemove rest p

/-- Write content at a path, replacing any previous entry. -/
def fsSet (fs : FsState) (p : String) (v : Nat) : FsState :=
  (p, v) :: fsRemove fs p

/-- `fs::rename`: moves the content at `src` to `dst` (overwriting `dst`);
fails exactly when `src` does not exist. -/
def fsRename (fs : FsState) (src dst : String) : Option FsState :=
  match fsLookup fs src with
  | none => none
  | some v => some (fsSet (fsRemove fs src) dst v)

/-- `fs::copy` followed by `fs::remove_file` on the source. -/
def fsCopyThenDelete (fs : FsState) (src dst : String) : Option FsState :=
  match fsLookup fs src with
  | none => none
  | some v => some (fsRemove (fsSet fs dst v) src)

-- ===== Quarantine store commands =====

/-- One entry of a `restore_from_quarantine` call. -/
structure RestoreItem where
  fileName : String
  originalPath : String
deriving DecidableEq, Repr

/-- `restore_from_quarantine`: per item, validate the name (an invalid
name aborts the whole call), skip missing sources, rename any destination
occupant to its `.stellar_backup` sibling (failure only logged), then move
the quarantined file into place with a copy+delete fallback. -/
def restoreFromQuarantine (qroot : String) (fs : FsState) (items : List RestoreItem) :
    Except String Unit × FsState :=
  match items with
  | [] => (Except.ok (), fs)
  | item :: rest =>
    match validateQuarantineName item.fileName with
    | Except.error e => (Except.error e, fs)
    | Except.ok () =>
      let src := qroot ++ "/" ++ item.fileName
      if (fsLookup fs src).isSome then
        let dest := item.originalPath
        let fs1 :=
          if (fsLookup fs dest).isSome then
            match fsRename fs dest (withExtension dest "stellar_backup") with
            | some fsB => fsB
            | none => fs
          else fs
        match fsRename fs1 src dest with
        | some fs2 => restoreFromQuarantine qroot fs2 rest
        | none =>
          match fsCopyThenDelete fs1 src dest with
          | some fs2 => restoreFromQuarantine qroot fs2 rest
          | none =>
            (Except.error ("Failed to restore file " ++ item.fileName ++ " to " ++
              item.originalPath), fs1)
      else
        restoreFromQuarantine qroot fs rest

/-- `delete_quarantine_files`: per name, validate (an invalid name aborts
the whole call); removing a non-existent entry is a no-op. -/
def deleteQuarantineFiles (qroot : String) (fs : FsState) (names : List String) :
    Except String Unit × FsState :=
  match names with
  | [] => (Except.ok (), fs)
  | name :: rest =>
    match validateQuarantineName name with
    | Except.error e => (Except.error e, fs)
    | Except.ok () =>
      let path := qroot ++ "/" ++ name
      if (fsLookup fs path).isSome then
        deleteQuarantineFiles qroot (fsRemove fs path) rest
      else
        deleteQuarantineFiles qroot fs rest

/-- Result of running code that may hit a Rust panic. -/
inductive PanicOr (α : Type) where
  | panic (msg : String)
  | done (v : α)
deriving DecidableEq, Repr

/-- `delete_files` (delete by original path): takes
`Path::new(original).file_name().unwrap()` — a `None` file name panics —
then removes the same-named quarantine entry if present. -/
def deleteFiles (qroot : String) (fs : FsState) (paths : List String) :
    PanicOr (Except String Unit × FsState) :=
  match paths with
  | [] => PanicOr.done (Except.ok (), fs)
  | original :: rest =>
    match rustFileName original with
    | none => PanicOr.panic "called Option.unwrap on a None value"
    | some fname =>
      let qpath := qroot ++ "/" ++ fname
      if (fsLookup fs qpath).isSome then
        deleteFiles qroot (fsRemove fs qpath) rest
      else
        deleteFiles qroot fs rest

-- ===== Threat intelligence client (`call_threat_api_batch`) =====

/-- One file entry of a lookup request (`ThreatApiFile`). -/
structure ThreatApiFile where
  sha256 : String
  size : Option Nat
  fileExt : Option String
deriving DecidableEq, Repr

/-- A signature carried in a positive lookup result (`ThreatApiSignature`). -/
structure ThreatApiSignature where
  id : String
  name : String
  family : String
  category : String
  severity : String
deriving DecidableEq, Repr

/-- One lookup result (`ThreatApiResult`). -/
structure ThreatApiResult where
  sha256 : String
  verdict : String
  signature : Option ThreatApiSignature
  recommendedAction : Option String
deriving DecidableEq, Repr

/-- `HTTP_RETRIES` from the source. -/
def HTTP_RETRIES : Nat := 1

/-- `CHUNK_SIZE` from the source. -/
def CHUNK_SIZE : Nat := 1000

/-- `StatusCode::is_success` (2xx). -/
def isSuccessStatus (s : Nat) : Bool := 200 ≤ s && s < 300

/-- `StatusCode::is_server_error` (5xx). -/
def isServerError (s : Nat) : Bool := 500 ≤ s && s < 600

/-- `StatusCode::is_client_error` (4xx). -/
def isClientError (s : Nat) : Bool := 400 ≤ s && s < 500

/-- What the network does on one attempt at one chunk: either a
transport-level failure, or an HTTP status plus the outcome of reading and
parsing the body (a parse fault carries its formatted error message). -/
inductive AttemptOutcome where
  | transportErr (msg : String)
  | response (status : Nat) (body : Except String (List ThreatApiResult))

/-- Trace of processing one chunk: attempts actually made, the back-off
sleeps performed (in ms, one per retry), and the outcome. -/
structure ChunkRun where
  attempts : Nat
  sleepsMs : List Nat
  result : Except String (List ThreatApiResult)
deriving Repr

/-- The retry loop of `call_threat_api_batch` for one chunk, as a function
of the attempt index and the retries still allowed.  A 2xx response is
consumed (a body/parse fault aborts without retry); a non-2xx status
retries only when attempts remain and the status is 5xx, else fails with
`API returned HTTP {status}`; a transport failure retries while attempts
remain, else fails with the recorded error. -/
def runChunkFrom (oracle : Nat → AttemptOutcome) : Nat → Nat → ChunkRun
  | attempt, left =>
    match oracle attempt with
    | AttemptOutcome.response status body =>
      if isSuccessStatus status then
        match body with
        | Except.error e => ⟨1, [], Except.error e⟩
        | Except.ok rs => ⟨1, [], Except.ok rs⟩
      else
        match left with
        | l + 1 =>
          if isServerError status then
            let r := runChunkFrom oracle (attempt + 1) l
            ⟨r.attempts + 1, 400 :: r.sleepsMs, r.result⟩
          else ⟨1, [], Except.error ("API returned HTTP " ++ toString status)⟩
        | 0 => ⟨1, [], Except.error ("API returned HTTP " ++ toString status)⟩
    | AttemptOutcome.transportErr msg =>
      match left with
      | l + 1 =>
        let r := runChunkFrom oracle (attempt + 1) l
        ⟨r.attempts + 1, 400 :: r.sleepsMs, r.result⟩
      | 0 => ⟨1, [], Except.error ("API request error: " ++ msg)⟩

/-- Run one chunk from attempt 0 with `HTTP_RETRIES` retries allowed. -/
def runChunk (oracle : Nat → AttemptOutcome) : ChunkRun :=
  runChunkFrom oracle 0 HTTP_RETRIES

/-- Split a list into consecutive chunks of size `k + 1` (Rust
`slice::chunks`, which never yields an empty chunk). -/
def chunksBy (k : Nat) (l : List α) : List (List α) :=
  match l with
  | [] => []
  | a :: rest => (a :: rest.take k) :: chunksBy k (rest.drop k)
termination_by l.length
decreasing_by simp [List.length_drop]; omega

/-- The chunking used by `call_threat_api_batch`: `CHUNK_SIZE = 1000`. -/
def chunks1000 (files : List ThreatApiFile) : List (List ThreatApiFile) :=
  chunksBy (CHUNK_SIZE - 1) files

/-- Trace of a whole batch call: chunk requests actually issued, and the
overall outcome. -/
structure BatchRun where
  chunkCalls : Nat
  result : Except String (List ThreatApiResult)
deriving Repr

/-- The chunk loop of `call_threat_api_batch`: results of successful
chunks are appended in order; the first irrecoverable chunk failure aborts
the whole call with that error.  The oracle is indexed by chunk index and
attempt index. -/
def batchGo (oracle : Nat → Nat → AttemptOutcome) :
    Nat → List (List ThreatApiFile) → List ThreatApiResult → BatchRun
  | _, [], acc => ⟨0, Except.ok acc⟩
  | idx, _chunk :: rest, acc =>
    match (runChunk (oracle idx)).result with
    | Except.error e => ⟨1, Except.error e⟩
    | Except.ok rs =>
      let b := batchGo oracle (idx + 1) rest (acc ++ rs)
      ⟨b.chunkCalls + 1, b.result⟩

/-- `call_threat_api_batch`: empty input short-circuits to an empty
success without any network call; otherwise the input is chunked and the
chunks processed in order. -/
def callThreatApiBatch (oracle : Nat → Nat → AttemptOutcome)
    (files : List ThreatApiFile) : BatchRun :=
  if files.isEmpty then ⟨0, Except.ok []⟩
  else batchGo oracle 0 (chunks1000 files) []

-- ===== Scan orchestrator (`run_hash_lookup_scan`) =====

/-- Events emitted by a scan pass: `scan_progress`, `scan_finished`, and
desktop notifications, in emission order. -/
inductive ScanEvent where
  | progress (file : String) (current total : Nat)
  | finished (threats : List (String × String))
  | note (body : String)
deriving DecidableEq, Repr

/-- Recognize a terminal `scan_finished` event. -/
def isFinishedEvent : ScanEvent → Bool
  | ScanEvent.finished _ => true
  | _ => false

/-- `path.extension().map(to_lowercase)` on a path string. -/
def extOfPath (p : String) : Option String :=
  (rustFileName p).bind (fun n => (rustStemExt n).2.map toLowerStr)

/-- The hashing loop of `run_hash_lookup_scan`: pairs each index with its
path and hash, silently dropping files the hash oracle fails on. -/
def indexToPath (hashO : String → Option String) (paths : List String) :
    List (Nat × String × String) :=
  paths.enum.filterMap (fun e => (hashO e.2).map (fun h => (e.1, e.2, h)))

/-- Assemble the lookup request entries: hash plus size and lowercased
extension hints. -/
def buildFilesForApi (hashO : String → Option String) (sizeO : String → Option Nat)
    (paths : List String) : List ThreatApiFile :=
  (indexToPath hashO paths).map (fun e => ⟨e.2.2, sizeO e.2.1, extOfPath e.2.1⟩)

/-- Insert into the hash-to-path map, replacing any previous binding
(`HashMap::insert`). -/
def mapInsert (m : List (String × String)) (k v : String) : List (String × String) :=
  (k, v) :: m.filter (fun e => e.1 ≠ k)

/-- First-match lookup in the hash-to-path map. -/
def mapLookup : List (String × String) → String → Option String
  | [], _ => none
  | (k, v) :: rest, q => if q = k then some v else mapLookup rest q

/-- Build the `hash_to_path` map: lowercased hash to path string, last
write wins. -/
def hashToPathMap (entries : List (Nat × String × String)) : List (String × String) :=
  entries.foldl (fun m e => mapInsert m (toLowerStr e.2.2) e.2.1) []

/-- The display name of a positive result: the signature's name, or the
literal `Unknown threat` when the signature is absent. -/
def threatDisplayName (r : ThreatApiResult) : String :=
  match r.signature with
  | some s => s.name
  | none => "Unknown threat"

/-- The correlation loop of `run_hash_lookup_scan`: lowercase the verdict,
skip `clean` and `unknown`, and otherwise map the (lowercased) fingerprint
back to a scanned path, pairing it with the display name. -/
def correlateThreats (m : List (String × String)) (results : List ThreatApiResult) :
    List (String × String) :=
  results.foldl (fun acc r =>
    let v := toLowerStr r.verdict
    if v = "clean" ∨ v = "unknown" then acc
    else
      match mapLookup m (toLowerStr r.sha256) with
      | some p => acc ++ [(threatDisplayName r, p)]
      | none => acc) []

/-- `run_hash_lookup_scan`: emits progress per file while hashing, asks
the threat API once for the whole set, and on failure still emits a
terminal `scan_finished` with zero threats before surfacing the error;
on success emits the correlated threat list.  Returns the emitted events
(in order) and the command result. -/
def runHashLookupScan (hashO : String → Option String) (sizeO : String → Option Nat)
    (api : List ThreatApiFile → Except String (List ThreatApiResult))
    (label : String) (paths : List String) : List ScanEvent × Except String Unit :=
  let total := paths.length
  if total = 0 then ([ScanEvent.finished []], Except.ok ())
  else
    let progressEvents := paths.enum.map (fun e => ScanEvent.progress e.2 (e.1 + 1) total)
    match api (buildFilesForApi hashO sizeO paths) with
    | Except.error e =>
      (progressEvents ++ [ScanEvent.finished [],
        ScanEvent.note (label ++ " failed – could not verify results.")], Except.error e)
    | Except.ok results =>
      let threats := correlateThreats (hashToPathMap (indexToPath hashO paths)) results
      let doneNote :=
        if threats.isEmpty then ScanEvent.note (label ++ " completed – no threats found.")
        else ScanEvent.note (label ++ " completed – " ++ toString threats.length ++
          " threat(s) found.")
      (progressEvents ++ [ScanEvent.finished threats, doneNote], Except.ok ())

-- ===== Realtime monitor (`start_realtime_watcher` event loop) =====

/-- `SUPPRESS_WINDOW` (2 seconds), in milliseconds. -/
def SUPPRESS_WINDOW_MS : Nat := 2000

/-- Kind of a raw filesystem notification. -/
inductive RtKind where
  | create
  | modify
  | remove
  | any
  | other
deriving DecidableEq, Repr

/-- A raw filesystem notification: a kind and its paths. -/
structure RtEvent where
  kind : RtKind
  paths : List String
deriving DecidableEq, Repr

/-- Events emitted by the realtime loop: `realtime_file_event`,
`realtime_threat_detected`, and desktop notifications. -/
inductive RtEmit where
  | fileEvent (file : String) (kindStr : String)
  | threatDetected (threats : List (String × String))
  | note (body : String)
deriving DecidableEq, Repr

/-- Side effects of the detection step, recorded for auditing: a hashing
attempt on a file, or a single-hash network lookup. -/
inductive RtAction where
  | hashedFile (path : String)
  | apiLookup (sha : String)
deriving DecidableEq, Repr

/-- The kind label string sent with `realtime_file_event`. -/
def kindLabel : RtKind → String
  | RtKind.create => "create"
  | RtKind.modify => "modify"
  | RtKind.remove => "remove"
  | RtKind.any => "any"
  | RtKind.other => "other"

/-- `Path::starts_with` for the quarantine-root filter, on Unix-style
path strings. -/
def pathStartsWith (base p : String) : Bool :=
  p = base || ((base ++ "/").toList).isPrefixOf p.toList

/-- `is_test_filename`: the literal test filename rule (case-insensitive
on the file name). -/
def isTestFilename (p : String) : Bool :=
  match rustFileName p with
  | some n => toLowerStr n = "stellar-test.bin" || toLowerStr n = "stellar_test.bin"
  | none => false

/-- First-match lookup in the `recent_hits` map. -/
def lookupRecent : List (String × Nat) → String → Option Nat
  | [], _ => none
  | (k, t) :: rest, f => if f = k then some t else lookupRecent rest f

/-- `recent_hits.insert`: replace any previous binding for the path. -/
def insertRecent (recent : List (String × Nat)) (f : String) (t : Nat) :
    List (String × Nat) :=
  (f, t) :: recent.filter (fun e => e.1 ≠ f)

/-- The bounded sweep: once the map exceeds 256 entries, discard entries
older than the suppression window. -/
def sweepRecent (recent : List (String × Nat)) (now : Nat) : List (String × Nat) :=
  if recent.length > 256 then recent.filter (fun e => now - SUPPRESS_WINDOW_MS ≤ e.2)
  else recent

/-- The debounce gate of the realtime loop: a path that triggered within
the suppression window is suppressed (`false`, map unchanged); otherwise
the detection attempt proceeds (`true`) and the path's hit time is
recorded, with the bounded sweep applied. -/
def detectionGate (recent : List (String × Nat)) (file : String) (now : Nat) :
    Bool × List (String × Nat) :=
  match lookupRecent recent file with
  | some last =>
    if now - last < SUPPRESS_WINDOW_MS then (false, recent)
    else (true, sweepRecent (insertRecent recent file now) now)
  | none => (true, sweepRecent (insertRecent recent file now) now)

/-- One iteration of the realtime event loop: the enabled flag, empty
path lists and events under the quarantine root drop the event; otherwise
a `realtime_file_event` is emitted, irrelevant kinds stop there, the
debounce gate is consulted, and a qualifying event runs detection — the
test-filename rule first (no hashing, no network), else hash plus a
single-item lookup.  A positive detection emits `realtime_threat_detected`
with the hardcoded pair `("Threat detected", file)` (the computed display
name is dropped by the code) plus a notification.  Returns the emitted
events, the recorded hash/network actions, and the updated recency map. -/
def processRtEvent (enabled : Bool) (qdir : String)
    (hashO : String → Option String)
    (apiO : String → Except String (Option ThreatApiResult))
    (recent : List (String × Nat)) (now : Nat) (ev : RtEvent) :
    List RtEmit × List RtAction × List (String × Nat) :=
  if !enabled then ([], [], recent)
  else if ev.paths.isEmpty then ([], [], recent)
  else
    match ev.paths.getLast? with
    | none => ([], [], recent)
    | some path =>
      if pathStartsWith qdir path then ([], [], recent)
      else
        let file := path
        let emits0 := [RtEmit.fileEvent file (kindLabel ev.kind)]
        let relevant := ev.kind = RtKind.create || ev.kind = RtKind.modify ||
          ev.kind = RtKind.any
        if !relevant then (emits0, [], recent)
        else
          match detectionGate recent file now with
          | (false, recent1) => (emits0, [], recent1)
          | (true, recent1) =>
            let det :=
              if isTestFilename path then
                (some "Stellar.Test.FileNameRule", ([] : List RtAction))
              else
                match hashO path with
                | none => (none, [RtAction.hashedFile path])
                | some h =>
                  let hl := toLowerStr h
                  let acts := [RtAction.hashedFile path, RtAction.apiLookup hl]
                  match apiO hl with
                  | Except.ok (some r) =>
                    let v := toLowerStr r.verdict
                    if v ≠ "clean" ∧ v ≠ "unknown" then
                      (some (threatDisplayName r), acts)
                    else (none, acts)
                  | Except.ok none => (none, acts)
                  | Except.error _ => (none, acts)
            match det.1 with
            | some _ =>
              (emits0 ++ [RtEmit.threatDetected [("Threat detected", file)],
                RtEmit.note ("Real-time protection blocked: " ++ file)],
               det.2, recent1)
            | none => (emits0, det.2, recent1)

-- ===== Concrete instantiation data (for closed statements) =====

/-- A sample positive lookup result. -/
def sampleResult : ThreatApiResult :=
  ⟨"aabb", "malware", none, none⟩

/-- Attempt oracle answering HTTP 404 on every attempt. -/
def oracle4xx : Nat → AttemptOutcome :=
  fun _ => AttemptOutcome.response 404 (Except.ok [])

/-- Attempt oracle answering HTTP 503 on the first attempt and HTTP 200
with one parsed result on the retry. -/
def oracle503then200 : Nat → AttemptOutcome :=
  fun n =>
    if n = 0 then AttemptOutcome.response 503 (Except.ok [])
    else AttemptOutcome.response 200 (Except.ok [sampleResult])

/-- Batch oracle answering HTTP 200 with an empty result list for every
chunk and attempt. -/
def okOracle : Nat → Nat → AttemptOutcome :=
  fun _ _ => AttemptOutcome.response 200 (Except.ok [])

/-- A sample clean lookup result. -/
def sampleClean : ThreatApiResult :=
  ⟨"cc", "Clean", none, none⟩

/-- A sample hash-to-path correlation map. -/
def sampleMap : List (String × String) :=
  [("aabb", "/tmp/mal.bin")]

/-- A dummy lookup request entry. -/
def dummyFile : ThreatApiFile := ⟨"00", none, none⟩

/-- 2500 dummy lookup request entries. -/
def files2500 : List ThreatApiFile := List.replicate 2500 dummyFile

-- ===== Helper lemmas: filesystem model =====

theorem fsLookup_fsRemove_ne (fs : FsState) (p q : String) (h : q ≠ p) :
    fsLookup (fsRemove fs p) q = fsLookup fs q := by
  induction fs with
  | nil => rfl
  | cons a rest ih =>
    obtain ⟨k, v⟩ := a
    by_cases hk : k = p
    · subst hk
      have hq : q ≠ k := h
      simp [fsRemove, fsLookup, ih, hq]
    · simp only [fsRemove, if_neg hk, fsLookup]
      by_cases hq : q = k <;> simp [hq, ih]

theorem fsLookup_fsSet_eq (fs : FsState) (p : String) (v : Nat) :
    fsLookup (fsSet fs p v) p = some v := by
  simp [fsSet, fsLookup]

theorem fsLookup_fsSet_ne (fs : FsState) (p q : String) (v : Nat) (h : q ≠ p) :
    fsLookup (fsSet fs p v) q = fsLookup fs q := by
  simp only [fsSet, fsLookup, if_neg h, fsLookup_fsRemove_ne fs p q h]

-- ===== Helper lemmas: invalid names abort batched calls =====

theorem restore_invalid_head (qroot : String) (fs : FsState) (item : RestoreItem)
    (rest : List RestoreItem) (e : String)
    (h : validateQuarantineName item.fileName = Except.error e) :
    restoreFromQuarantine qroot fs (item :: rest) = (Except.error e, fs) := by
  simp only [restoreFromQuarantine, h]

theorem delete_invalid_head (qroot : String) (fs : FsState) (name : String)
    (rest : List String) (e : String)
    (h : validateQuarantineName name = Except.error e) :
    deleteQuarantineFiles qroot fs (name :: rest) = (Except.error e, fs) := by
  simp only [deleteQuarantineFiles, h]

theorem restore_some_invalid_not_ok (qroot : String) (items : List RestoreItem)
    (hbad : ∃ item ∈ items, ∃ e, validateQuarantineName item.fileName = Except.error e) :
    ∀ fs : FsState, (restoreFromQuarantine qroot fs items).1 ≠ Except.ok () := by
  induction items with
  | nil => simp at hbad
  | cons item rest ih =>
    intro fs
    rcases hv : validateQuarantineName item.fileName with e | u
    · rw [restore_invalid_head qroot fs item rest e hv]
      simp
    · cases u
      have hrest : ∃ it ∈ rest, ∃ e, validateQuarantineName it.fileName = Except.error e := by
        rcases hbad with ⟨it, hmem, e, he⟩
        rcases List.mem_cons.mp hmem with rfl | hmem2
        · rw [hv] at he; exact absurd he (by simp)
        · exact ⟨it, hmem2, e, he⟩
      have ih2 := ih hrest
      simp only [restoreFromQuarantine, hv]
      split
      · split
        · exact ih2 _
        · split
          · exact ih2 _
          · simp
      · exact ih2 _

theorem delete_some_invalid_not_ok (qroot : String) (names : List String)
    (hbad : ∃ name ∈ names, ∃ e, validateQuarantineName name = Except.error e) :
    ∀ fs : FsState, (deleteQuarantineFiles qroot fs names).1 ≠ Except.ok () := by
  induction names with
  | nil => simp at hbad
  | cons name rest ih =>
    intro fs
    rcases hv : validateQuarantineName name with e | u
    · rw [delete_invalid_head qroot fs name rest e hv]
      simp
    · cases u
      have hrest : ∃ n ∈ rest, ∃ e, validateQuarantineName n = Except.error e := by
        rcases hbad with ⟨n, hmem, e, he⟩
        rcases List.mem_cons.mp hmem with rfl | hmem2
        · rw [hv] at he; exact absurd he (by simp)
        · exact ⟨n, hmem2, e, he⟩
      have ih2 := ih hrest
      simp only [deleteQuarantineFiles, hv]
      split
      · exact ih2 _
      · exact ih2 _

-- ===== Claim theorems =====

/-- C10: `delete_files` unwraps the basename of each input path; a path
whose final component is not a file name (`..`, or the bare root `/`)
makes the command panic instead of erroring or skipping the entry. -/
theorem delete_files_unwrap_panics :
    deleteFiles "/q" [] [".."] = PanicOr.panic "called Option.unwrap on a None value" ∧
    deleteFiles "/q" [] ["/"] = PanicOr.panic "called Option.unwrap on a None value" :=
  ⟨rfl, rfl⟩

/-- C3 counterexample: the name `a/` contains a path separator, yet
`validate_quarantine_name` accepts it (it parses to the single normal
component `a`), so "contains a path separator implies rejected" is false. -/
theorem validate_accepts_trailing_separator :
    validateQuarantineName "a/" = Except.ok () ∧ "a/".toList.contains '/' = true :=
  ⟨rfl, rfl⟩

/-- C3 (amended): validation accepts a name exactly when it parses to one
normal path component; `.`, `..`, the empty name and multi-component names
are rejected, and a rejected name aborts the restore/delete call at once
with the filesystem untouched.  (A trailing separator, as in `a/`, still
parses to one normal component and is accepted.) -/
theorem validate_name_characterization :
    (∀ name, validateQuarantineName name = Except.ok () ↔
      ∃ s, rustComponents name = [PComp.normal s])
    ∧ validateQuarantineName "." = Except.error "Invalid quarantine file name"
    ∧ validateQuarantineName ".." = Except.error "Invalid quarantine file name"
    ∧ validateQuarantineName "" = Except.error "Invalid quarantine file name"
    ∧ validateQuarantineName "a/b" = Except.error "Invalid quarantine file name"
    ∧ (∀ name e, validateQuarantineName name = Except.error e →
        (∀ qroot fs origPath rest,
          restoreFromQuarantine qroot fs (⟨name, origPath⟩ :: rest) = (Except.error e, fs)) ∧
        (∀ qroot fs rest,
          deleteQuarantineFiles qroot fs (name :: rest) = (Except.error e, fs))) := by
  refine ⟨?_, rfl, rfl, rfl, rfl, ?_⟩
  · intro name
    constructor
    · intro h
      unfold validateQuarantineName at h
      split at h
      · rename_i s heq
        exact ⟨s, heq⟩
      · exact absurd h (by simp)
    · rintro ⟨s, hs⟩
      unfold validateQuarantineName
      rw [hs]
  · intro name e he
    exact ⟨fun qroot fs origPath rest => restore_invalid_head qroot fs ⟨name, origPath⟩ rest e he,
      fun qroot fs rest => delete_invalid_head qroot fs name rest e he⟩

/-- C3 witness: the characterization applied at concrete names. -/
theorem validate_name_characterization_witness :
    (validateQuarantineName "good.bin" = Except.ok () ↔
      ∃ s, rustComponents "good.bin" = [PComp.normal s]) ∧
    restoreFromQuarantine "/q" [] [⟨"..", "/x"⟩] =
      (Except.error "Invalid quarantine file name", []) := by
  constructor
  · exact validate_name_characterization.1 "good.bin"
  · exact (validate_name_characterization.2.2.2.2.2 ".." "Invalid quarantine file name" rfl).1
      "/q" [] "/x" []

/-- C4 counterexample: in a restore batch whose second item has the
invalid name `..`, the first item has already been moved out of quarantine
to its destination when the validation error is returned, so "no item
earlier in the batch has been moved when the error is returned" is false. -/
theorem restore_batch_mutates_before_error :
    restoreFromQuarantine "/q" [("/q/a", 5)] [⟨"a", "/home/a"⟩, ⟨"..", "/x"⟩] =
      (Except.error "Invalid quarantine file name", [("/home/a", 5)]) ∧
    fsLookup [("/q/a", 5)] "/q/a" = some 5 ∧
    fsLookup (restoreFromQuarantine "/q" [("/q/a", 5)]
      [⟨"a", "/home/a"⟩, ⟨"..", "/x"⟩]).2 "/q/a" = none :=
  ⟨rfl, rfl, rfl⟩

/-- C4 (amended): an item with an invalid name makes the whole batched
restore/delete call return the validation error, and when the invalid item
is reached no filesystem path derived from its name has been touched (the
state is exactly the state at the start of that item's iteration); items
earlier in the batch may however already have been processed. -/
theorem batch_validation_abort :
    (∀ qroot fs item rest e, validateQuarantineName item.fileName = Except.error e →
        restoreFromQuarantine qroot fs (item :: rest) = (Except.error e, fs))
    ∧ (∀ qroot fs name rest e, validateQuarantineName name = Except.error e →
        deleteQuarantineFiles qroot fs (name :: rest) = (Except.error e, fs))
    ∧ (∀ qroot fs items,
        (∃ item ∈ items, ∃ e, validateQuarantineName item.fileName = Except.error e) →
        (restoreFromQuarantine qroot fs items).1 ≠ Except.ok ())
    ∧ (∀ qroot fs names,
        (∃ name ∈ names, ∃ e, validateQuarantineName name = Except.error e) →
        (deleteQuarantineFiles qroot fs names).1 ≠ Except.ok ()) :=
  ⟨restore_invalid_head, delete_invalid_head,
    fun qroot fs items h => restore_some_invalid_not_ok qroot items h fs,
    fun qroot fs names h => delete_some_invalid_not_ok qroot names h fs⟩

/-- C4 witness: the abort behavior applied at concrete batches. -/
theorem batch_validation_abort_witness :
    deleteQuarantineFiles "/q" [("/q/x", 7)] ["..", "x"] =
      (Except.error "Invalid quarantine file name", [("/q/x", 7)]) ∧
    (restoreFromQuarantine "/q" [] [⟨"a/b", "/y"⟩]).1 ≠ Except.ok () := by
  constructor
  · exact batch_validation_abort.2.1 "/q" [("/q/x", 7)] ".." ["x"]
      "Invalid quarantine file name" rfl
  · exact batch_validation_abort.2.2.1 "/q" [] [⟨"a/b", "/y"⟩]
      ⟨⟨"a/b", "/y"⟩, by simp, "Invalid quarantine file name", rfl⟩

/-- C2 counterexample: when the destination's own extension is already
`stellar_backup`, `with_extension` maps it to itself, the backup rename is
a self-rename, and the occupant (content 2) is silently overwritten by the
restored file (content 1) — the restore still reports success. -/
theorem restore_overwrites_backup_ext_occupant :
    fsLookup [("/q/evil", 1), ("/home/evil.stellar_backup", 2)]
      "/home/evil.stellar_backup" = some 2 ∧
    withExtension "/home/evil.stellar_backup" "stellar_backup" =
      "/home/evil.stellar_backup" ∧
    restoreFromQuarantine "/q" [("/q/evil", 1), ("/home/evil.stellar_backup", 2)]
      [⟨"evil", "/home/evil.stellar_backup"⟩] =
      (Except.ok (), [("/home/evil.stellar_backup", 1)]) :=
  ⟨rfl, rfl, rfl⟩

/-- C2 (amended): for a restore of an item whose quarantined source exists
and whose destination is occupied, when the `.stellar_backup` sibling path
(the destination with its extension replaced) differs from both the
destination and the source, the occupant is renamed aside to that sibling
before the quarantined file is moved in: afterwards the occupant's content
is at the backup path and the quarantined content at the destination.
When the destination's extension is already `stellar_backup` the backup
path coincides with the destination and the occupant is overwritten. -/
theorem restore_backs_up_occupant (qroot : String) (fs : FsState)
    (name origPath : String) (v c : Nat)
    (hval : validateQuarantineName name = Except.ok ())
    (hsrc : fsLookup fs (qroot ++ "/" ++ name) = some v)
    (hdest : fsLookup fs origPath = some c)
    (hb1 : withExtension origPath "stellar_backup" ≠ origPath)
    (hb2 : withExtension origPath "stellar_backup" ≠ qroot ++ "/" ++ name)
    (hsd : origPath ≠ qroot ++ "/" ++ name) :
    (restoreFromQuarantine qroot fs [⟨name, origPath⟩]).1 = Except.ok () ∧
    fsLookup (restoreFromQuarantine qroot fs [⟨name, origPath⟩]).2
      (withExtension origPath "stellar_backup") = some c ∧
    fsLookup (restoreFromQuarantine qroot fs [⟨name, origPath⟩]).2 origPath = some v := by
  have h1 : fsRename fs origPath (withExtension origPath "stellar_backup") =
      some (fsSet (fsRemove fs origPath) (withExtension origPath "stellar_backup") c) := by
    simp [fsRename, hdest]
  have hlook1 : fsLookup
      (fsSet (fsRemove fs origPath) (withExtension origPath "stellar_backup") c)
      (qroot ++ "/" ++ name) = some v := by
    rw [fsLookup_fsSet_ne _ _ _ _ (fun hh => hb2 hh.symm)]
    rw [fsLookup_fsRemove_ne _ _ _ (fun hh => hsd hh.symm)]
    exact hsrc
  have h2 : fsRename
      (fsSet (fsRemove fs origPath) (withExtension origPath "stellar_backup") c)
      (qroot ++ "/" ++ name) origPath =
      some (fsSet (fsRemove
        (fsSet (fsRemove fs origPath) (withExtension origPath "stellar_backup") c)
        (qroot ++ "/" ++ name)) origPath v) := by
    simp [fsRename, hlook1]
  have hrun : restoreFromQuarantine qroot fs [⟨name, origPath⟩] =
      (Except.ok (), fsSet (fsRemove
        (fsSet (fsRemove fs origPath) (withExtension origPath "stellar_backup") c)
        (qroot ++ "/" ++ name)) origPath v) := by
    simp only [restoreFromQuarantine, hval, hsrc, hdest, Option.isSome_some, if_true, h1, h2]
  rw [hrun]
  refine ⟨rfl, ?_, ?_⟩
  · rw [fsLookup_fsSet_ne _ _ _ _ hb1, fsLookup_fsRemove_ne _ _ _ hb2,
      fsLookup_fsSet_eq]
  · rw [fsLookup_fsSet_eq]

/-- C2 witness: the backup behavior at a concrete quarantine state. -/
theorem restore_backs_up_occupant_witness :
    (restoreFromQuarantine "/q" [("/q/a", 1), ("/home/a.txt", 2)]
      [⟨"a", "/home/a.txt"⟩]).1 = Except.ok () ∧
    fsLookup (restoreFromQuarantine "/q" [("/q/a", 1), ("/home/a.txt", 2)]
      [⟨"a", "/home/a.txt"⟩]).2 (withExtension "/home/a.txt" "stellar_backup") = some 2 ∧
    fsLookup (restoreFromQuarantine "/q" [("/q/a", 1), ("/home/a.txt", 2)]
      [⟨"a", "/home/a.txt"⟩]).2 "/home/a.txt" = some 1 :=
  restore_backs_up_occupant "/q" [("/q/a", 1), ("/home/a.txt", 2)] "a" "/home/a.txt" 1 2
    rfl rfl rfl (by decide) (by decide) (by decide)

-- ===== Helper lemmas: retry loop =====

theorem runChunkFrom_last (oracle : Nat → AttemptOutcome) (a : Nat) :
    (runChunkFrom oracle a 0).attempts = 1 ∧ (runChunkFrom oracle a 0).sleepsMs = [] := by
  cases h : oracle a with
  | transportErr msg => simp [runChunkFrom, h]
  | response status body =>
    by_cases hs : isSuccessStatus status
    · cases body <;> simp [runChunkFrom, h, hs]
    · simp [runChunkFrom, h, hs]

theorem client_status_facts (s : Nat) (h : isClientError s = true) :
    isSuccessStatus s = false ∧ isServerError s = false := by
  simp only [isClientError, Bool.and_eq_true, decide_eq_true_eq] at h
  refine ⟨?_, ?_⟩ <;>
    simp only [isSuccessStatus, isServerError, Bool.and_eq_false_iff,
      decide_eq_false_iff_not, not_lt, not_le] <;> omega

/-- C5: per chunk, at most `HTTP_RETRIES + 1 = 2` attempts are made; a
second attempt happens only after a transport failure or a non-2xx 5xx
status and is preceded by exactly one 400 ms sleep; a 4xx status fails the
call immediately on the first attempt without retry; and a 503 answered by
a 200 on the retry yields the second attempt's parsed results. -/
theorem chunk_retry_policy (oracle : Nat → AttemptOutcome) :
    (runChunk oracle).attempts ≤ 2
    ∧ ((runChunk oracle).attempts = 2 →
        (runChunk oracle).sleepsMs = [400] ∧
        ((∃ msg, oracle 0 = AttemptOutcome.transportErr msg) ∨
         (∃ s b, oracle 0 = AttemptOutcome.response s b ∧
           isSuccessStatus s = false ∧ isServerError s = true)))
    ∧ (∀ s b, oracle 0 = AttemptOutcome.response s b → isClientError s = true →
        (runChunk oracle).result = Except.error ("API returned HTTP " ++ toString s) ∧
        (runChunk oracle).attempts = 1)
    ∧ (∀ b0 rs, oracle 0 = AttemptOutcome.response 503 b0 →
        oracle 1 = AttemptOutcome.response 200 (Except.ok rs) →
        (runChunk oracle).result = Except.ok rs ∧ (runChunk oracle).attempts = 2) := by
  obtain ⟨ha1, hs1⟩ := runChunkFrom_last oracle 1
  cases h0 : oracle 0 with
  | transportErr msg =>
    have hrun : runChunk oracle =
        ⟨(runChunkFrom oracle 1 0).attempts + 1, 400 :: (runChunkFrom oracle 1 0).sleepsMs,
          (runChunkFrom oracle 1 0).result⟩ := by
      simp [runChunk, HTTP_RETRIES, runChunkFrom, h0]
    refine ⟨by rw [hrun]; simp [ha1], ?_, ?_, ?_⟩
    · intro _
      exact ⟨by rw [hrun]; simp [hs1], Or.inl ⟨msg, rfl⟩⟩
    · intro s b hsb _
      exact absurd hsb (by simp)
    · intro b0 rs hsb _
      exact absurd hsb (by simp)
  | response status body =>
    by_cases hsucc : isSuccessStatus status = true
    · have hrun : (runChunk oracle).attempts = 1 := by
        cases body <;> simp [runChunk, HTTP_RETRIES, runChunkFrom, h0, hsucc]
      refine ⟨by rw [hrun]; omega, fun h2 => absurd (hrun ▸ h2) (by decide), ?_, ?_⟩
      · intro s b hsb hcl
        injection hsb with hs hb
        subst hs
        exact absurd hsucc (by simp [(client_status_facts status hcl).1])
      · intro b0 rs hsb _
        injection hsb with hs hb
        subst hs
        exact absurd hsucc (by decide)
    · have hsucc2 : isSuccessStatus status = false := by
        simpa using hsucc
      by_cases hserv : isServerError status = true
      · have hrun : runChunk oracle =
            ⟨(runChunkFrom oracle 1 0).attempts + 1, 400 :: (runChunkFrom oracle 1 0).sleepsMs,
              (runChunkFrom oracle 1 0).result⟩ := by
          simp [runChunk, HTTP_RETRIES, runChunkFrom, h0, hsucc2, hserv]
        refine ⟨by rw [hrun]; simp [ha1], ?_, ?_, ?_⟩
        · intro _
          exact ⟨by rw [hrun]; simp [hs1], Or.inr ⟨status, body, rfl, hsucc2, hserv⟩⟩
        · intro s b hsb hcl
          injection hsb with hs hb
          subst hs
          exact absurd hserv (by simp [(client_status_facts status hcl).2])
        · intro b0 rs hsb h1
          injection hsb with hs hb
          have htail : runChunkFrom oracle 1 0 = ⟨1, [], Except.ok rs⟩ := by
            simp [runChunkFrom, h1, show isSuccessStatus 200 = true from by decide]
          rw [hrun, htail]
          exact ⟨rfl, rfl⟩
      · have hserv2 : isServerError status = false := by
          simpa using hserv
        have hrun : runChunk oracle =
            ⟨1, [], Except.error ("API returned HTTP " ++ toString status)⟩ := by
          simp [runChunk, HTTP_RETRIES, runChunkFrom, h0, hsucc2, hserv2]
        refine ⟨by rw [hrun]; simp, by rw [hrun]; simp, ?_, ?_⟩
        · intro s b hsb _
          injection hsb with hs hb
          subst hs
          rw [hrun]
          exact ⟨rfl, rfl⟩
        · intro b0 rs hsb _
          injection hsb with hs hb
          subst hs
          exact absurd hserv2 (by decide)

/-- C5 witness: the policy applied to a 404-answering oracle and to a
503-then-200 oracle. -/
theorem chunk_retry_policy_witness :
    ((runChunk oracle4xx).result = Except.error ("API returned HTTP " ++ toString 404) ∧
      (runChunk oracle4xx).attempts = 1) ∧
    ((runChunk oracle503then200).result = Except.ok [sampleResult] ∧
      (runChunk oracle503then200).attempts = 2) := by
  refine ⟨(chunk_retry_policy oracle4xx).2.2.1 404 (Except.ok []) rfl (by decide), ?_⟩
  exact (chunk_retry_policy oracle503then200).2.2.2 (Except.ok []) [sampleResult] rfl rfl

-- ===== Helper lemmas: chunking =====

theorem chunksBy_join (k : Nat) (l : List α) : (chunksBy k l).flatten = l := by
  match l with
  | [] => simp [chunksBy]
  | a :: rest =>
    have ih := chunksBy_join k (rest.drop k)
    rw [chunksBy]
    simp [ih, List.take_append_drop]
termination_by l.length
decreasing_by simp [List.length_drop]; omega

theorem chunksBy_length (k : Nat) (l : List α) :
    (chunksBy k l).length = (l.length + k) / (k + 1) := by
  match l with
  | [] => simp [chunksBy, Nat.div_eq_of_lt (by omega : k < k + 1)]
  | a :: rest =>
    have ih := chunksBy_length k (rest.drop k)
    rw [chunksBy]
    simp only [List.length_cons, ih, List.length_drop]
    by_cases h : k ≤ rest.length
    · have h1 : rest.length - k + k = rest.length := by omega
      have h2 : rest.length + 1 + k = rest.length + (k + 1) := by omega
      rw [h1, h2, Nat.add_div_right _ (by omega : 0 < k + 1)]
    · have h1 : rest.length - k = 0 := by omega
      have h2 : rest.length + 1 + k = rest.length + (k + 1) := by omega
      rw [h1, h2, Nat.add_div_right _ (by omega : 0 < k + 1), Nat.zero_add,
        Nat.div_eq_of_lt (by omega : k < k + 1),
        Nat.div_eq_of_lt (by omega : rest.length < k + 1)]
termination_by l.length
decreasing_by simp [List.length_drop]; omega

theorem chunksBy_mem_length (k : Nat) (l : List α) :
    ∀ c ∈ chunksBy k l, c.length ≤ k + 1 := by
  match l with
  | [] => simp [chunksBy]
  | a :: rest =>
    have ih := chunksBy_mem_length k (rest.drop k)
    rw [chunksBy]
    intro c hc
    rcases List.mem_cons.mp hc with rfl | hc2
    · simp only [List.length_cons, List.length_take]
      have := Nat.min_le_left k rest.length
      omega
    · exact ih c hc2
termination_by l.length
decreasing_by simp [List.length_drop]; omega

theorem batchGo_all_ok (oracle : Nat → Nat → AttemptOutcome)
    (rs : Nat → List ThreatApiResult) :
    ∀ (chunks : List (List ThreatApiFile)) (i0 : Nat) (acc : List ThreatApiResult),
      (∀ j < chunks.length, (runChunk (oracle (i0 + j))).result = Except.ok (rs (i0 + j))) →
      batchGo oracle i0 chunks acc =
        ⟨chunks.length,
          Except.ok (acc ++ ((List.range chunks.length).map (fun j => rs (i0 + j))).flatten)⟩ := by
  intro chunks
  induction chunks with
  | nil =>
    intro i0 acc _
    simp [batchGo]
  | cons c rest ih =>
    intro i0 acc h
    have h0 := h 0 (by simp)
    rw [Nat.add_zero] at h0
    have hrest : ∀ j < rest.length,
        (runChunk (oracle (i0 + 1 + j))).result = Except.ok (rs (i0 + 1 + j)) := by
      intro j hj
      have hh := h (j + 1) (by simpa using Nat.succ_lt_succ hj)
      rwa [show i0 + (j + 1) = i0 + 1 + j by omega] at hh
    have ihr := ih (i0 + 1) (acc ++ rs i0) hrest
    simp only [batchGo, h0, ihr, List.length_cons]
    have hfun : (fun j => rs (i0 + 1 + j)) = (fun j => rs (i0 + (j + 1))) := by
      funext j
      congr 1
      omega
    rw [hfun]
    simp only [List.range_succ_eq_map, List.map_cons, List.map_map, List.flatten_cons,
      List.append_assoc]
    rfl

theorem batchGo_err (oracle : Nat → Nat → AttemptOutcome) :
    ∀ (chunks : List (List ThreatApiFile)) (i0 : Nat) (acc : List ThreatApiResult) (j : Nat),
      j < chunks.length →
      (∀ v, (runChunk (oracle (i0 + j))).result ≠ Except.ok v) →
      ∀ u, (batchGo oracle i0 chunks acc).result ≠ Except.ok u := by
  intro chunks
  induction chunks with
  | nil =>
    intro i0 acc j hj
    simp at hj
  | cons c rest ih =>
    intro i0 acc j hj hne u
    cases hres : (runChunk (oracle i0)).result with
    | error e => simp [batchGo, hres]
    | ok rs0 =>
      match j with
      | 0 =>
        rw [Nat.add_zero] at hne
        exact absurd hres (hne rs0)
      | j' + 1 =>
        have hj' : j' < rest.length := by
          simp only [List.length_cons] at hj
          omega
        have hne' : ∀ v, (runChunk (oracle (i0 + 1 + j'))).result ≠ Except.ok v := by
          intro v
          rw [show i0 + 1 + j' = i0 + (j' + 1) by omega]
          exact hne v
        have hrec := ih (i0 + 1) (acc ++ rs0) j' hj' hne' u
        simp only [batchGo, hres]
        exact hrec

/-- C6: a non-empty batch is split into `ceil(n/1000)` chunks of at most
1000 entries each whose concatenation is the input in order; when every
chunk succeeds the call issues exactly one request per chunk and returns
the per-chunk results concatenated in chunk order; when some chunk fails
irrecoverably the whole call returns an error, never a partial result. -/
theorem batch_lookup_chunking (oracle : Nat → Nat → AttemptOutcome)
    (files : List ThreatApiFile) (rs : Nat → List ThreatApiResult) (hne : files ≠ []) :
    (chunks1000 files).length = (files.length + 999) / 1000
    ∧ (∀ c ∈ chunks1000 files, c.length ≤ 1000)
    ∧ (chunks1000 files).flatten = files
    ∧ ((∀ j, j < (chunks1000 files).length →
          (runChunk (oracle j)).result = Except.ok (rs j)) →
        callThreatApiBatch oracle files =
          ⟨(chunks1000 files).length,
            Except.ok (((List.range (chunks1000 files).length).map rs).flatten)⟩)
    ∧ ((∃ j, j < (chunks1000 files).length ∧
          ∀ v, (runChunk (oracle j)).result ≠ Except.ok v) →
        ∀ u, (callThreatApiBatch oracle files).result ≠ Except.ok u) := by
  have hempty : files.isEmpty = false := by
    cases files with
    | nil => exact absurd rfl hne
    | cons a l => rfl
  refine ⟨?_, ?_, ?_, ?_, ?_⟩
  · rw [chunks1000, show CHUNK_SIZE - 1 = 999 from rfl, chunksBy_length]
  · intro c hc
    rw [chunks1000, show CHUNK_SIZE - 1 = 999 from rfl] at hc
    have := chunksBy_mem_length 999 files c hc
    omega
  · rw [chunks1000, show CHUNK_SIZE - 1 = 999 from rfl, chunksBy_join]
  · intro h
    rw [callThreatApiBatch, hempty]
    have hok := batchGo_all_ok oracle rs (chunks1000 files) 0 []
      (by intro j hj; rw [Nat.zero_add]; exact h j hj)
    rw [show (if (false = true) then (⟨0, Except.ok []⟩ : BatchRun)
        else batchGo oracle 0 (chunks1000 files) []) =
        batchGo oracle 0 (chunks1000 files) [] from rfl, hok]
    simp
  · rintro ⟨j, hj, hne2⟩ u
    rw [callThreatApiBatch, hempty]
    rw [show (if (false = true) then (⟨0, Except.ok []⟩ : BatchRun)
        else batchGo oracle 0 (chunks1000 files) []) =
        batchGo oracle 0 (chunks1000 files) [] from rfl]
    exact batchGo_err oracle (chunks1000 files) 0 [] j hj
      (by rw [Nat.zero_add]; exact hne2) u

/-- C6 witness: 2500 dummy entries are split into exactly 3 chunks, and
an all-success batch over them issues 3 chunk calls and returns the
concatenated results. -/
theorem batch_lookup_chunking_witness :
    (chunks1000 files2500).length = 3 ∧
    callThreatApiBatch okOracle files2500 = ⟨3, Except.ok []⟩ := by
  have hne : files2500 ≠ [] := by
    intro h
    have hl := congrArg List.length h
    simp only [files2500, List.length_replicate, List.length_nil] at hl
    exact absurd hl (by decide)
  have hlen : (chunks1000 files2500).length = 3 := by
    rw [(batch_lookup_chunking okOracle files2500 (fun _ => []) hne).1]
    simp only [files2500, List.length_replicate]
  refine ⟨hlen, ?_⟩
  have h4 := (batch_lookup_chunking okOracle files2500 (fun _ => []) hne).2.2.2.1
    (by intro j hj; rfl)
  rw [h4, hlen]
  rfl

-- ===== Helper lemmas: scan orchestration =====

theorem filter_finished_progress (paths : List String) (total : Nat) :
    (paths.enum.map (fun e => ScanEvent.progress e.2 (e.1 + 1) total)).filter
      isFinishedEvent = [] := by
  rw [List.filter_eq_nil_iff]
  intro a ha
  rcases List.mem_map.mp ha with ⟨e2, _, rfl⟩
  simp [isFinishedEvent]

theorem correlateThreats_eq_filterMap (m : List (String × String))
    (results : List ThreatApiResult) :
    correlateThreats m results = results.filterMap (fun r =>
      if toLowerStr r.verdict = "clean" ∨ toLowerStr r.verdict = "unknown" then none
      else (mapLookup m (toLowerStr r.sha256)).map (fun p => (threatDisplayName r, p))) := by
  have key : ∀ (rl : List ThreatApiResult) (acc : List (String × String)),
      rl.foldl (fun acc r =>
        let v := toLowerStr r.verdict
        if v = "clean" ∨ v = "unknown" then acc
        else
          match mapLookup m (toLowerStr r.sha256) with
          | some p => acc ++ [(threatDisplayName r, p)]
          | none => acc) acc
      = acc ++ rl.filterMap (fun r =>
          if toLowerStr r.verdict = "clean" ∨ toLowerStr r.verdict = "unknown" then none
          else (mapLookup m (toLowerStr r.sha256)).map (fun p => (threatDisplayName r, p))) := by
    intro rl
    induction rl with
    | nil => intro acc; simp
    | cons r rest ih =>
      intro acc
      simp only [List.foldl_cons, List.filterMap_cons]
      by_cases hv : toLowerStr r.verdict = "clean" ∨ toLowerStr r.verdict = "unknown"
      · simp only [if_pos hv, ih]
      · simp only [if_neg hv]
        cases hm : mapLookup m (toLowerStr r.sha256) with
        | none => simp [ih]
        | some p => simp [ih, List.append_assoc]
  simpa using key results []

/-- C1: whenever the batch lookup for a (non-trivial) scan fails, the scan
still emits exactly one terminal `scan_finished` event, with an empty
threat list, and returns the lookup error to the caller. -/
theorem scan_error_emits_terminal_finished (hashO : String → Option String)
    (sizeO : String → Option Nat)
    (api : List ThreatApiFile → Except String (List ThreatApiResult))
    (label : String) (paths : List String) (e : String)
    (hne : paths ≠ [])
    (herr : api (buildFilesForApi hashO sizeO paths) = Except.error e) :
    (runHashLookupScan hashO sizeO api label paths).2 = Except.error e ∧
    (runHashLookupScan hashO sizeO api label paths).1.filter isFinishedEvent =
      [ScanEvent.finished []] := by
  have htot : ¬(paths.length = 0) := by
    simpa using hne
  have hrun : runHashLookupScan hashO sizeO api label paths =
      (paths.enum.map (fun e2 => ScanEvent.progress e2.2 (e2.1 + 1) paths.length) ++
        [ScanEvent.finished [],
          ScanEvent.note (label ++ " failed – could not verify results.")],
       Except.error e) := by
    simp only [runHashLookupScan, herr, if_neg htot]
  rw [hrun]
  refine ⟨rfl, ?_⟩
  rw [List.filter_append, filter_finished_progress]
  rfl

/-- C1 witness: a one-file scan whose lookup fails with `boom`. -/
theorem scan_error_emits_terminal_finished_witness :
    (runHashLookupScan (fun _ => some "aa") (fun _ => none)
      (fun _ => Except.error "boom") "Quick scan" ["/f"]).2 = Except.error "boom" ∧
    (runHashLookupScan (fun _ => some "aa") (fun _ => none)
      (fun _ => Except.error "boom") "Quick scan" ["/f"]).1.filter isFinishedEvent =
      [ScanEvent.finished []] :=
  scan_error_emits_terminal_finished (fun _ => some "aa") (fun _ => none)
    (fun _ => Except.error "boom") "Quick scan" ["/f"] "boom" (by simp) rfl

/-- C7: in the correlation step, a result whose verdict lowercases to
`clean` or `unknown` contributes nothing to the threat list; a result with
any other verdict whose fingerprint maps back to a scanned path
contributes the pair of its display name — the signature name, or
`Unknown threat` when the signature is absent — and that path. -/
theorem scan_verdict_normalization :
    (∀ (m : List (String × String)) (results : List ThreatApiResult),
        correlateThreats m results = results.filterMap (fun r =>
          if toLowerStr r.verdict = "clean" ∨ toLowerStr r.verdict = "unknown" then none
          else (mapLookup m (toLowerStr r.sha256)).map (fun p => (threatDisplayName r, p))))
    ∧ (∀ (m : List (String × String)) (results : List ThreatApiResult) (r : ThreatApiResult),
        (toLowerStr r.verdict = "clean" ∨ toLowerStr r.verdict = "unknown") →
        correlateThreats m (results ++ [r]) = correlateThreats m results)
    ∧ (∀ (m : List (String × String)) (results : List ThreatApiResult)
        (r : ThreatApiResult) (p : String),
        toLowerStr r.verdict ≠ "clean" → toLowerStr r.verdict ≠ "unknown" →
        mapLookup m (toLowerStr r.sha256) = some p →
        correlateThreats m (results ++ [r]) =
          correlateThreats m results ++ [(threatDisplayName r, p)]) := by
  refine ⟨correlateThreats_eq_filterMap, ?_, ?_⟩
  · intro m results r hv
    rw [correlateThreats_eq_filterMap, correlateThreats_eq_filterMap, List.filterMap_append]
    simp [hv]
  · intro m results r p h1 h2 hm
    rw [correlateThreats_eq_filterMap, correlateThreats_eq_filterMap, List.filterMap_append]
    simp [h1, h2, hm]

/-- C7 witness: a `Clean` verdict contributes nothing; a `malware` verdict
with no signature contributes an `Unknown threat` pair. -/
theorem scan_verdict_normalization_witness :
    correlateThreats sampleMap [sampleClean] = [] ∧
    correlateThreats sampleMap [sampleResult] = [("Unknown threat", "/tmp/mal.bin")] := by
  constructor
  · have h := scan_verdict_normalization.2.1 sampleMap [] sampleClean (Or.inl rfl)
    rw [List.nil_append] at h
    rw [h]
    rfl
  · have h := scan_verdict_normalization.2.2 sampleMap [] sampleResult "/tmp/mal.bin"
      (by decide) (by decide) rfl
    rw [List.nil_append] at h
    rw [h]
    rfl

/-- C8: a qualifying create event for a file named `stellar-test.bin`
produces a detection with no hashing and no network lookup (the recorded
action list is empty), but the emitted `realtime_threat_detected` payload
carries the hardcoded pair `("Threat detected", path)` — the computed
display name `Stellar.Test.FileNameRule` is dropped by the code. -/
theorem realtime_test_filename_detection :
    processRtEvent true "/q" (fun _ => none) (fun _ => Except.ok none) [] 5000
      ⟨RtKind.create, ["/home/user/Downloads/stellar-test.bin"]⟩ =
      ([RtEmit.fileEvent "/home/user/Downloads/stellar-test.bin" "create",
        RtEmit.threatDetected [("Threat detected", "/home/user/Downloads/stellar-test.bin")],
        RtEmit.note "Real-time protection blocked: /home/user/Downloads/stellar-test.bin"],
       [], [("/home/user/Downloads/stellar-test.bin", 5000)]) ∧
    "Threat detected" ≠ "Stellar.Test.FileNameRule" :=
  ⟨rfl, by decide⟩

-- ===== Helper lemmas: realtime debounce =====

theorem lookupRecent_gate_inserted (recent : List (String × Nat)) (f : String) (t : Nat) :
    lookupRecent (sweepRecent (insertRecent recent f t) t) f = some t := by
  unfold sweepRecent insertRecent
  split
  · rw [List.filter_cons, if_pos (by simp [Nat.sub_le])]
    simp [lookupRecent]
  · simp [lookupRecent]

/-- C9: after a detection attempt for a path at time `t0` updated the
recency map, a second relevant event on the same path strictly within the
2000 ms suppression window is suppressed — no detection attempt, map
unchanged — while an event spaced at or beyond the window produces a
detection attempt again. -/
theorem realtime_debounce (recent : List (String × Nat)) (file : String)
    (t0 t1 : Nat) (m1 : List (String × Nat))
    (h0 : detectionGate recent file t0 = (true, m1)) (_hmono : t0 ≤ t1) :
    (t1 - t0 < SUPPRESS_WINDOW_MS → detectionGate m1 file t1 = (false, m1)) ∧
    (SUPPRESS_WINDOW_MS ≤ t1 - t0 → (detectionGate m1 file t1).1 = true) := by
  have hm1 : m1 = sweepRecent (insertRecent recent file t0) t0 := by
    unfold detectionGate at h0
    split at h0
    · split at h0
      · simp at h0
      · injection h0 with _ hm
        exact hm.symm
    · injection h0 with _ hm
      exact hm.symm
  have hlook : lookupRecent m1 file = some t0 := by
    rw [hm1]
    exact lookupRecent_gate_inserted recent file t0
  constructor
  · intro hwin
    simp only [detectionGate, hlook, if_pos hwin]
  · intro hwin
    simp only [detectionGate, hlook, if_neg (by omega : ¬ t1 - t0 < SUPPRESS_WINDOW_MS)]

/-- C9 witness: the debounce behavior at concrete times 100, 1500, 2100. -/
theorem realtime_debounce_witness :
    detectionGate [("/a", 100)] "/a" 1500 = (false, [("/a", 100)]) ∧
    (detectionGate [("/a", 100)] "/a" 2100).1 = true := by
  have h0 : detectionGate [] "/a" 100 = (true, [("/a", 100)]) := rfl
  have h := realtime_debounce [] "/a" 100 1500 [("/a", 100)] h0 (by omega)
  have h2 := realtime_debounce [] "/a" 100 2100 [("/a", 100)] h0 (by omega)
  exact ⟨h.1 (by decide), h2.2 (by decide)⟩
